import Mathlib

/-
Verification of the ping dispatcher (src/src/main.rs) against its
natural-language specification.  The Rust source is shallowly embedded:
pure functions become Lean functions on Nat / List Nat, machine integers
are Nat together with explicit reductions modulo 2^32 where the u32
accumulator can wrap, and effectful code is modelled by explicit state
passing with external events (clock readings, send outcomes, file
contents) supplied as parameters.
-/

/-! ## Addresses -/

/-- A network address as loaded into the Target Pool.  The program never
inspects the address beyond parsing and passing it to the transport, so
the payload is kept abstract. -/
inductive IpAddr
  | v4 (a b c d : Nat)
  | v6 (segs : List Nat)
deriving DecidableEq, Repr

/-! ## Checksum (fn icmp_checksum, src/src/main.rs lines 179-197)

The Rust loop walks the slice two bytes at a time, forming big-endian
16-bit words and left-shifting a trailing odd byte by 8 (zero padding on
the right).  `sumWords` is that summation loop with an unbounded
accumulator; the source accumulates in a `u32`, so the embedded
`icmp_checksum` reduces the word sum modulo 2^32 (wrapping each
`sum += word` step is the same as one reduction of the total). -/

def sumWords : List Nat → Nat
  | [] => 0
  | [b] => b * 256
  | b1 :: b2 :: rest => (b1 * 256 + b2) + sumWords rest

/-- The carry-fold loop of `icmp_checksum`:
while (sum >> 16) > 0 \x7b sum = (sum & 0xffff) + (sum >> 16) \x7d,
written with s / 65536 for s >> 16 and s % 65536 for s & 0xffff. -/
def foldCarry (s : Nat) : Nat :=
  if h : 0 < s / 65536 then foldCarry (s % 65536 + s / 65536) else s
termination_by s
decreasing_by omega

/-- icmp_checksum from the source: u32 word sum (hence the reduction
modulo 4294967296), carry fold, then !sum as u16: bitwise complement in
u32 followed by truncation to the low 16 bits. -/
def icmp_checksum (data : List Nat) : Nat :=
  (4294967295 - foldCarry (sumWords data % 4294967296)) % 65536

/-- Modelled from the spec: the standard Internet checksum exactly as the
spec words it, with an exact (unbounded) word sum in place of the
u32 accumulator of the source, for comparison with `icmp_checksum`. -/
def icmpChecksumSpec (data : List Nat) : Nat :=
  65535 - foldCarry (sumWords data)

/-! ## Whitelist loader (fn load_whitelist, src/src/main.rs lines 199-223)

The file read, the JSON parse (serde_json) and the address parse
(std FromStr for IpAddr) are external collaborators, so they enter the
model as parameters: `readResult` is the outcome of fs read_to_string,
`jp` is serde_json from_str for Vec of String (none = parse error), and
`ap` is the address parser (none = invalid address).  Rust lines() is
modelled by splitting on the newline character; the difference on a
trailing newline or a carriage return is absorbed by the trim and the
skip of blank lines that immediately follow, exactly as in the source. -/

def lineFallback (ap : String → Option IpAddr) (content : String) : List IpAddr :=
  ((((content.splitOn ("\n")).map String.trim).filter (fun l => l ≠ "")).filterMap ap)

def load_whitelist (jp : String → Option (List String)) (ap : String → Option IpAddr) :
    Except Unit String → Except Unit (List IpAddr)
  | .error e => .error e
  | .ok content =>
    match jp content with
    | some jsonIps => .ok (jsonIps.filterMap ap)
    | none => .ok (lineFallback ap content)

/-! ## Coordinator (fn main, src/src/main.rs lines 225-301) -/

/-- Worker sizing from main: core_count.max(1).min(16). -/
def worker_count (core_count : Nat) : Nat :=
  min (max core_count 1) 16

/-- Rate partition from main: rps_per_worker = args.rps / worker_count,
usize (hence floor) division. -/
def rps_per_worker (rps workerCount : Nat) : Nat :=
  rps / workerCount

/-- Outcome of main up to the point where workers are spawned.
ioError is the ? propagation of a failed file read (process exits with a
nonzero status); emptyPoolExit is the branch printing the message
No valid IP addresses found in whitelist and then returning Ok of unit,
so the process exits with status 0 and no worker is ever created;
run is the branch that spawns worker_count workers, each with a clone of
the Target Pool and the per worker rate share. -/
inductive MainOutcome
  | ioError
  | emptyPoolExit
  | run (targets : List IpAddr) (workerCount rpsShare : Nat)
deriving DecidableEq, Repr

def mainModel (jp : String → Option (List String)) (ap : String → Option IpAddr)
    (readResult : Except Unit String) (coreCount rps : Nat) : MainOutcome :=
  match load_whitelist jp ap readResult with
  | .error _ => .ioError
  | .ok targets =>
    if targets.isEmpty then .emptyPoolExit
    else .run targets (worker_count coreCount)
      (rps_per_worker rps (worker_count coreCount))

/-- Process exit status for each outcome of main: a propagated Err exits
nonzero, every Ok return (including the empty pool branch) exits 0. -/
def exitCode : MainOutcome → Nat
  | .ioError => 1
  | .emptyPoolExit => 0
  | .run _ _ _ => 0

/-! ## Batch dispatcher (fn PingWorker::send_batch, src/src/main.rs lines 88-109)

Each spawned task reads the system clock (its nanosecond value is the
external parameter `nanos`), selects index = nanos % targets.len(),
reads targets[index], and calls send_ping; a send error is written to
stderr and otherwise discarded.  send_ping itself is network I/O, so its
outcome is the external oracle `fails` (true = the send returned Err).
The record target uses the checked lookup so that the in-bounds claim is
expressible: a some value means the Rust indexing was in bounds.  With an
empty pool the remainder by targets.len() is a division by zero, which
ends that task before any send; the dispatcher itself discards the join
result (let _ = task.await), so the task outcome is an Option. -/

structure SendRecord where
  index : Nat
  target : Option IpAddr
  logged : Bool
deriving DecidableEq, Repr

def sendTask (targets : List IpAddr) (fails : IpAddr → Bool) (nanos : Nat) :
    Option SendRecord :=
  if targets.length = 0 then none
  else
    let i := nanos % targets.length
    let t := targets[i]?
    some ⟨i, t, match t with | some a => fails a | none => false⟩

/-- send_batch spawns `count` tasks (the k-th with clock reading
nanosAt k) and then awaits every one of them before returning; the
returned list holds the joined outcome of each spawned task, in join
order. -/
def send_batch (targets : List IpAddr) (fails : IpAddr → Bool)
    (nanosAt : Nat → Nat) (count : Nat) : List (Option SendRecord) :=
  (List.range count).map (fun k => sendTask targets fails (nanosAt k))

/-! ## Worker run loop (fn PingWorker::run, src/src/main.rs lines 61-86) -/

/-- Stats from the source, without the start_time field (time is carried
by the elapsed readings of the trace instead). -/
structure Stats where
  total_requests : Nat
  batches_sent : Nat
deriving DecidableEq, Repr

/-- One iteration of the run loop as two clock observations:
checkElapsed is start.elapsed() at the while guard, tickElapsed is the
elapsed time when the awaited interval tick fires, i.e. when send_batch
is entered.  The guard is evaluated BEFORE interval.tick().await, so in
any physically possible trace checkElapsed ≤ tickElapsed and time only
moves forward; the model keeps the trace as an arbitrary input list. -/
structure LoopTick where
  checkElapsed : Nat
  tickElapsed : Nat
deriving DecidableEq, Repr

/-- The loop iterations that actually dispatch a batch: the loop body
runs while the guard reading is below the duration and exits at the
first guard reading at or above it. -/
def dispatchedTicks (d : Nat) : List LoopTick → List LoopTick
  | [] => []
  | it :: rest =>
    if it.checkElapsed < d then it :: dispatchedTicks d rest else []

/-- PingWorker::run: per passing guard check, awaits one tick, runs
send_batch with the worker rate share, then adds rps to total_requests
and 1 to batches_sent under the stats lock.  The clock oracle nanosAt
takes the batch number and the task number.  Returns the final stats and
the joined outcomes of every dispatched batch. -/
def PingWorker.run (targets : List IpAddr) (fails : IpAddr → Bool)
    (nanosAt : Nat → Nat → Nat) (rps d : Nat) :
    List LoopTick → Stats → Stats × List (List (Option SendRecord))
  | [], st => (st, [])
  | it :: rest, st =>
    if it.checkElapsed < d then
      let batch := send_batch targets fails (nanosAt st.batches_sent) rps
      let res := PingWorker.run targets fails nanosAt rps d rest
        ⟨st.total_requests + rps, st.batches_sent + 1⟩
      (res.1, batch :: res.2)
    else (st, [])

/-- Full pipeline: main, and if workers are spawned, every worker run to
completion.  Each worker run returns unit in the source and its join is
awaited with ?; absent a task fault the join succeeds, so the process
exit status is fixed by the main outcome alone, while the per worker
results (stats and batch outcomes) are returned alongside. -/
def programRun (jp : String → Option (List String)) (ap : String → Option IpAddr)
    (readResult : Except Unit String) (coreCount rps : Nat)
    (fails : IpAddr → Bool) (nanosAt : Nat → Nat → Nat) (d : Nat)
    (tr : List LoopTick) :
    Nat × List (Stats × List (List (Option SendRecord))) :=
  match mainModel jp ap readResult coreCount rps with
  | .ioError => (1, [])
  | .emptyPoolExit => (0, [])
  | .run targets wc share =>
    (0, (List.range wc).map
      (fun _ => PingWorker.run targets fails nanosAt share d tr ⟨0, 0⟩))

/-- Exit status of the whole process. -/
def programExit (jp : String → Option (List String)) (ap : String → Option IpAddr)
    (readResult : Except Unit String) (coreCount rps : Nat)
    (fails : IpAddr → Bool) (nanosAt : Nat → Nat → Nat) (d : Nat)
    (tr : List LoopTick) : Nat :=
  (programRun jp ap readResult coreCount rps fails nanosAt d tr).1

/-! ## Concrete instances used to evaluate the theorems on sample inputs -/

/-- Sample address. -/
def ip0 : IpAddr := .v4 10 0 0 1

/-- Transport oracle on which every send fails. -/
def f0 : IpAddr → Bool := fun _ => true

/-- JSON parser stub that always reports an empty array. -/
def jp0 : String → Option (List String) := fun _ => some []

/-- Address parser stub on which every entry is malformed. -/
def ap0 : String → Option IpAddr := fun _ => none

/-- Constant per-task clock. -/
def clk1 : Nat → Nat := fun _ => 0

/-- Constant per-batch per-task clock. -/
def clk2 : Nat → Nat → Nat := fun _ _ => 0

/-! ## Helper lemmas about the carry fold -/

theorem foldCarry_of_lt {s : Nat} (h : s < 65536) : foldCarry s = s := by
  rw [foldCarry]
  simp [Nat.div_eq_of_lt h]

theorem foldCarry_lt (s : Nat) : foldCarry s < 65536 := by
  induction s using Nat.strong_induction_on with
  | _ s ih =>
    rw [foldCarry]
    split
    · exact ih _ (by omega)
    · omega

theorem foldCarry_mod (s : Nat) : foldCarry s % 65535 = s % 65535 := by
  induction s using Nat.strong_induction_on with
  | _ s ih =>
    rw [foldCarry]
    split
    · rw [ih _ (by omega)]
      omega
    · rfl

theorem foldCarry_pos {s : Nat} (h : 0 < s) : 0 < foldCarry s := by
  induction s using Nat.strong_induction_on with
  | _ s ih =>
    rw [foldCarry]
    split
    · exact ih _ (by omega) (by omega)
    · exact h

theorem foldCarry_le (s : Nat) : foldCarry s ≤ s := by
  induction s using Nat.strong_induction_on with
  | _ s ih =>
    rw [foldCarry]
    split
    · exact le_trans (ih _ (by omega)) (by omega)
    · exact le_refl s

theorem foldCarry_eq_ffff {s : Nat} (h1 : 0 < s) (h2 : s % 65535 = 0) :
    foldCarry s = 65535 := by
  have ha := foldCarry_lt s
  have hb := foldCarry_mod s
  have hc := foldCarry_pos h1
  omega

theorem icmp_checksum_eq (data : List Nat) :
    icmp_checksum data = 65535 - foldCarry (sumWords data % 4294967296) := by
  have := foldCarry_lt (sumWords data % 4294967296)
  unfold icmp_checksum
  omega

theorem sumWords_replicate (n : Nat) :
    sumWords (List.replicate (2 * n) 255) = n * 65535 := by
  induction n with
  | zero => rfl
  | succ k ih =>
    have h2 : 2 * (k + 1) = (2 * k) + 1 + 1 := by ring
    rw [h2, List.replicate_succ, List.replicate_succ]
    simp only [sumWords, ih]
    ring

/-! ## Claim theorems -/

/-- C2: each worker gets the floor of global_rps / worker_count (the
remainder is discarded), so the achieved aggregate rate never exceeds
the request; 2500 over 4 workers gives 625 each, and so does 2501. -/
theorem rate_partition_floor :
    (∀ rps wc, 1 ≤ wc →
      rps_per_worker rps wc * wc ≤ rps ∧
      rps < (rps_per_worker rps wc + 1) * wc) ∧
    rps_per_worker 2500 4 = 625 ∧ rps_per_worker 2501 4 = 625 := by
  refine ⟨?_, by norm_num [rps_per_worker], by norm_num [rps_per_worker]⟩
  intro rps wc h
  unfold rps_per_worker
  refine ⟨Nat.div_mul_le_self rps wc, ?_⟩
  rw [Nat.add_mul, one_mul]
  exact Nat.lt_div_mul_add (by omega)

theorem rate_partition_floor_witness :
    rps_per_worker 2500 4 * 4 ≤ 2500 :=
  (rate_partition_floor.1 2500 4 (by norm_num)).1

/-- C3 counterexample: on a byte slice of 131076 bytes of value 255 the
u32 accumulator of icmp_checksum wraps, and the result (1) differs from
the standard Internet checksum computed with an exact word sum (0). -/
theorem icmp_checksum_wraps_cex :
    icmp_checksum (List.replicate 131076 255) ≠
    icmpChecksumSpec (List.replicate 131076 255) := by
  have hs : sumWords (List.replicate 131076 255) = 4295032830 := by
    have h := sumWords_replicate 65538
    norm_num at h
    exact h
  rw [icmp_checksum_eq, icmpChecksumSpec, hs]
  have h1 : (4295032830 : Nat) % 4294967296 = 65534 := by norm_num
  rw [h1, foldCarry_of_lt (by norm_num),
    foldCarry_eq_ffff (by norm_num) (by norm_num)]
  norm_num

/-- C3 amended: for every byte slice whose big-endian 16-bit word sum is
below 2^32 (every slice of at most 131074 bytes, so every packet this
program builds), icmp_checksum computes exactly the standard
ones-complement Internet checksum: big-endian word sum with a
zero-padded trailing odd byte, repeated carry fold, then complement. -/
theorem icmp_checksum_standard (data : List Nat)
    (h : sumWords data < 4294967296) :
    icmp_checksum data = icmpChecksumSpec data := by
  rw [icmp_checksum_eq, icmpChecksumSpec, Nat.mod_eq_of_lt h]

theorem icmp_checksum_standard_witness :
    sumWords (8 :: 0 :: List.replicate 62 0) < 4294967296 ∧
    icmp_checksum (8 :: 0 :: List.replicate 62 0) =
      icmpChecksumSpec (8 :: 0 :: List.replicate 62 0) :=
  ⟨by decide, icmp_checksum_standard (8 :: 0 :: List.replicate 62 0) (by decide)⟩

/-- C4: writing the computed checksum back into bytes 2 and 3 of a
packet whose checksum field was zero (in big-endian order, exactly as
send_ping does with copy_from_slice of to_be_bytes) and re-running
icmp_checksum over the full packet yields zero; this holds for every
such packet, in particular the 64-byte echo request. -/
theorem icmp_checksum_self_verify (b0 b1 : Nat) (rest : List Nat) :
    icmp_checksum (b0 :: b1 ::
      (icmp_checksum (b0 :: b1 :: 0 :: 0 :: rest) / 256) ::
      (icmp_checksum (b0 :: b1 :: 0 :: 0 :: rest) % 256) :: rest) = 0 := by
  have hc : icmp_checksum (b0 :: b1 :: 0 :: 0 :: rest) =
      65535 - foldCarry (sumWords (b0 :: b1 :: 0 :: 0 :: rest) % 4294967296) :=
    icmp_checksum_eq _
  set S := sumWords (b0 :: b1 :: 0 :: 0 :: rest) with hS
  set s := S % 4294967296 with hs
  set f := foldCarry s with hf
  have hs_lt : s < 4294967296 := by omega
  have hf_le : f ≤ s := foldCarry_le s
  have hf_lt : f < 65536 := foldCarry_lt s
  have hf_mod : f % 65535 = s % 65535 := foldCarry_mod s
  have hkey : s + (65535 - f) < 4294967296 := by
    rcases Nat.eq_zero_or_pos s with h0 | hpos
    · have hz : f = 0 := by rw [hf, h0, foldCarry_of_lt (by norm_num)]
      omega
    · have := foldCarry_pos hpos
      omega
  have hsum2 : sumWords (b0 :: b1 ::
      ((65535 - f) / 256) :: ((65535 - f) % 256) :: rest) = S + (65535 - f) := by
    rw [hS]
    simp only [sumWords]
    omega
  have hmod2 : (S + (65535 - f)) % 4294967296 = s + (65535 - f) := by omega
  have hfold : foldCarry (s + (65535 - f)) = 65535 :=
    foldCarry_eq_ffff (by omega) (by omega)
  rw [hc, icmp_checksum_eq, hsum2, hmod2, hfold]

/-- C7: the worker count computed by main is the clamp of the detected
parallelism to the range from 1 to 16. -/
theorem worker_count_clamp (p : Nat) :
    worker_count p = max 1 (min p 16) ∧
    1 ≤ worker_count p ∧ worker_count p ≤ 16 := by
  unfold worker_count
  omega

/-- C1: over a non-empty Target Pool, one send_batch call spawns exactly
count tasks and returns the joined outcome of every one of them: the
result lists one completed entry per requested send, whether the send
succeeded or failed, and none of the tasks died before its attempt. -/
theorem send_batch_complete (targets : List IpAddr) (fails : IpAddr → Bool)
    (nanosAt : Nat → Nat) (count : Nat) (h : targets ≠ []) :
    (send_batch targets fails nanosAt count).length = count ∧
    ∀ r ∈ send_batch targets fails nanosAt count, r.isSome = true := by
  have hlen : targets.length ≠ 0 := by
    simpa [List.length_eq_zero] using h
  refine ⟨by simp [send_batch], ?_⟩
  intro r hr
  simp only [send_batch, List.mem_map] at hr
  obtain ⟨k, _, rfl⟩ := hr
  simp [sendTask, hlen]

theorem send_batch_complete_witness :
    (send_batch [ip0] f0 clk1 3).length = 3 :=
  (send_batch_complete [ip0] f0 clk1 3 (by decide)).1

/-- C5 counterexample: with duration 3, a trace whose single loop
iteration reads elapsed 2 at the while guard but whose awaited tick
fires at elapsed 3 still dispatches a batch (the guard is evaluated
before interval.tick().await), so a batch begins although the elapsed
time at dispatch has already reached the duration, and a tick is
consumed at the boundary. -/
theorem run_deadline_cex :
    dispatchedTicks 3 [LoopTick.mk 2 3] = [LoopTick.mk 2 3] ∧
    (PingWorker.run [ip0] f0 clk2 5 3 [LoopTick.mk 2 3]
      (Stats.mk 0 0)).1.batches_sent = 1 ∧
    ¬ (LoopTick.mk 2 3).tickElapsed < 3 := by
  refine ⟨by decide, by decide, by decide⟩

/-- C5 amended: the run loop re-checks the deadline only at the top of
each iteration, before awaiting the next tick: a batch is dispatched
only when the guard reading was below the duration, and after the first
guard reading at or above the duration no further tick is consumed and
no further batch begins; because the guard precedes the tick await, the
final batch may begin up to one tick period after the deadline, and the
batch in flight at the boundary runs to completion. -/
theorem run_deadline_guard (d : Nat) (tr : List LoopTick) :
    (∀ it ∈ dispatchedTicks d tr, it.checkElapsed < d) ∧
    (∀ (i : Nat) (it : LoopTick), tr[i]? = some it → d ≤ it.checkElapsed →
      (dispatchedTicks d tr).length ≤ i) := by
  induction tr with
  | nil =>
    refine ⟨by simp [dispatchedTicks], ?_⟩
    intro i it hget
    simp at hget
  | cons hd rest ih =>
    by_cases h : hd.checkElapsed < d
    · refine ⟨?_, ?_⟩
      · intro it hit
        rw [dispatchedTicks, if_pos h] at hit
        rcases List.mem_cons.mp hit with rfl | hmem
        · exact h
        · exact ih.1 it hmem
      · intro i it hget hle
        cases i with
        | zero =>
          rw [List.getElem?_cons_zero, Option.some_inj] at hget
          subst hget
          omega
        | succ j =>
          rw [List.getElem?_cons_succ] at hget
          rw [dispatchedTicks, if_pos h, List.length_cons]
          have := ih.2 j it hget hle
          omega
    · refine ⟨?_, ?_⟩
      · intro it hit
        rw [dispatchedTicks, if_neg h] at hit
        simp at hit
      · intro i it _ _
        rw [dispatchedTicks, if_neg h]
        simp

theorem run_deadline_guard_witness :
    (dispatchedTicks 3 [LoopTick.mk 0 0, LoopTick.mk 3 3]).length ≤ 1 :=
  (run_deadline_guard 3 [LoopTick.mk 0 0, LoopTick.mk 3 3]).2 1
    (LoopTick.mk 3 3) rfl (by decide)

/-- C6 (evidence for the code bug): with a readable whitelist file whose
content parses to an empty pool, main prints the message and returns Ok
of unit, so no worker is ever started, but the process exit status is 0,
not the nonzero signal the claim requires for a fatal startup error. -/
theorem empty_pool_exit_status (jp : String → Option (List String))
    (ap : String → Option IpAddr) (cc rps : Nat)
    (h : jp ("[]") = some []) :
    mainModel jp ap (Except.ok ("[]")) cc rps = MainOutcome.emptyPoolExit ∧
    exitCode (mainModel jp ap (Except.ok ("[]")) cc rps) = 0 := by
  have hm : mainModel jp ap (Except.ok ("[]")) cc rps =
      MainOutcome.emptyPoolExit := by
    simp [mainModel, load_whitelist, h]
  exact ⟨hm, by rw [hm]; rfl⟩

theorem empty_pool_exit_status_witness :
    mainModel jp0 ap0 (Except.ok ("[]")) 4 2500 = MainOutcome.emptyPoolExit ∧
    exitCode (mainModel jp0 ap0 (Except.ok ("[]")) 4 2500) = 0 :=
  empty_pool_exit_status jp0 ap0 4 2500 rfl

/-- C8: the loader fails exactly when the file read fails; on a readable
file it first tries the JSON array parse, falling back to the
line-per-address format (trimmed, blank lines skipped) when that parse
fails; in either format each entry that fails address parsing is
silently dropped and the surviving entries keep their relative order. -/
theorem load_whitelist_spec (jp : String → Option (List String))
    (ap : String → Option IpAddr) :
    (∀ e, load_whitelist jp ap (Except.error e) = Except.error e) ∧
    (∀ content, (load_whitelist jp ap (Except.ok content)).isOk = true) ∧
    (∀ content l, jp content = some l →
      load_whitelist jp ap (Except.ok content) = Except.ok (l.filterMap ap)) ∧
    (∀ content, jp content = none →
      load_whitelist jp ap (Except.ok content) =
        Except.ok (lineFallback ap content)) ∧
    (∀ (xs ys : List String) (bad : String), ap bad = none →
      (xs ++ bad :: ys).filterMap ap = xs.filterMap ap ++ ys.filterMap ap) := by
  refine ⟨fun e => rfl, ?_, ?_, ?_, ?_⟩
  · intro content
    unfold load_whitelist
    cases h : jp content <;> simp [Except.isOk, Except.toBool, h]
  · intro content l h
    simp [load_whitelist, h]
  · intro content h
    simp [load_whitelist, h]
  · intro xs ys bad h
    simp [List.filterMap_append, List.filterMap_cons, h]

theorem load_whitelist_spec_witness :
    load_whitelist jp0 ap0 (Except.ok ("x")) = Except.ok [] :=
  (load_whitelist_spec jp0 ap0).2.2.1 ("x") [] rfl

/-- C9: a failed send is recorded in its task outcome (the stderr log
flag is exactly the transport failure), and failures reach nothing else:
the worker stats after a run are identical under any two transport
oracles, and the process exit status is identical under any two
transport oracles, so per-send failures are absorbed below the batch
boundary and never alter exit behavior. -/
theorem send_failures_absorbed :
    (∀ (targets : List IpAddr) (fails : IpAddr → Bool) (nanos : Nat)
        (a : IpAddr) (rec : SendRecord),
      sendTask targets fails nanos = some rec → rec.target = some a →
      rec.logged = fails a) ∧
    (∀ (targets : List IpAddr) (fails gails : IpAddr → Bool)
        (nanosAt : Nat → Nat → Nat) (rps d : Nat) (tr : List LoopTick)
        (st : Stats),
      (PingWorker.run targets fails nanosAt rps d tr st).1 =
        (PingWorker.run targets gails nanosAt rps d tr st).1) ∧
    (∀ (jp : String → Option (List String)) (ap : String → Option IpAddr)
        (rr : Except Unit String) (cc rps : Nat)
        (fails gails : IpAddr → Bool) (nanosAt : Nat → Nat → Nat)
        (d : Nat) (tr : List LoopTick),
      programExit jp ap rr cc rps fails nanosAt d tr =
        programExit jp ap rr cc rps gails nanosAt d tr) := by
  refine ⟨?_, ?_, ?_⟩
  · intro targets fails nanos a rec hsend htarget
    simp only [sendTask] at hsend
    split at hsend
    · exact Option.noConfusion hsend
    · rw [Option.some_inj] at hsend
      subst hsend
      simp only at htarget
      rw [htarget]
  · intro targets fails gails nanosAt rps d tr st
    induction tr generalizing st with
    | nil => rfl
    | cons it rest ih =>
      simp only [PingWorker.run]
      split
      · exact ih _
      · rfl
  · intro jp ap rr cc rps fails gails nanosAt d tr
    unfold programExit programRun
    cases mainModel jp ap rr cc rps <;> rfl

theorem send_failures_absorbed_witness :
    (SendRecord.mk 0 (some ip0) true).logged = f0 ip0 :=
  send_failures_absorbed.1 [ip0] f0 5 ip0
    (SendRecord.mk 0 (some ip0) true) (by decide) rfl

/-- C10: with a non-empty pool every spawned task completes its
selection, the selected index (the clock nanoseconds modulo the pool
length) is strictly below the pool length, and the pool lookup at that
index is in bounds; with an empty pool the remainder is a division by
zero and the task dies before any send, so the guarantee holds exactly
under the non-empty-pool precondition established at startup. -/
theorem target_index_in_bounds (targets : List IpAddr)
    (fails : IpAddr → Bool) (nanos : Nat) (h : targets ≠ []) :
    ((sendTask targets fails nanos).isSome = true ∧
     ∀ rec : SendRecord, sendTask targets fails nanos = some rec →
       rec.index < targets.length ∧ rec.target.isSome = true) ∧
    (∀ (gails : IpAddr → Bool) (m : Nat), sendTask [] gails m = none) := by
  have hlen : targets.length ≠ 0 := by
    simpa [List.length_eq_zero] using h
  have hpos : 0 < targets.length := Nat.pos_of_ne_zero hlen
  refine ⟨⟨by simp [sendTask, hlen], ?_⟩, fun gails m => rfl⟩
  intro rec hrec
  simp only [sendTask, if_neg hlen] at hrec
  rw [Option.some_inj] at hrec
  subst hrec
  refine ⟨Nat.mod_lt _ hpos, ?_⟩
  simp only
  rw [List.getElem?_eq_getElem (Nat.mod_lt _ hpos)]
  rfl

theorem target_index_in_bounds_witness :
    (sendTask [ip0] f0 7).isSome = true :=
  ((target_index_in_bounds [ip0] f0 7 (by decide)).1).1
